import Mathlib

/-!
# storage-fuse: a read-only FUSE view of a remote object store

Shallow embedding of `src/storage-fuse/main.go`.

* Byte slices are lists of bytes; the process-wide `fileCache` map is a finite
  map represented by its lookup function.
* `int64` / `int` values are integers; the one addition the program performs on
  them (`req.Offset+int64(req.Size)`) wraps around modulo `2^64`.
* A slice expression whose bounds are out of range panics; this is an explicit
  outcome of the handler.
* The network, the JSON decoder, the query encoder, the environment and
  `filepath.Join` are library code: they are fields of `World`.  The answer of
  `client.Do` may change from one round trip to the next, so it is indexed by
  the number of round trips already made, which the state records together with
  the list of requests sent.
* `log.Println` only writes diagnostics and is not modelled.
-/

namespace StorageFuse

/-! ## Data model -/

/-- One byte of a Go `[]byte`. -/
abbrev Byte := Fin 256

/-- A Go `[]byte` value. -/
abbrev Bytes := List Byte

/-- Go `error` values that the program can return (a nil error is `none` of
`Option GoError`). Errors made by `net/http`, `io` and `encoding/json` are
values of library types, kept apart from the two sentinels. -/
inductive GoError where
  /-- an error value produced by `net/http`, `io` or `encoding/json` -/
  | lib (msg : String)
  /-- the value of `fmt.Errorf(format, resp.Status, body)` -/
  | errorf (format : String) (status : String) (body : Bytes)
  /-- the value `syscall.Errno(n)` -/
  | errno (n : Nat)
  /-- the sentinel `io.EOF` -/
  | EOF
  deriving DecidableEq, Repr

/-- The constant `syscall.ENOENT`. -/
def ENOENT : GoError := GoError.errno 2

/-- The struct `File` (lines 21-25). `Size` is a `uint64`. -/
structure File where
  Name : String
  PresignedUrl : String
  Size : Nat
  deriving DecidableEq, Repr

/-- The struct `Folder` (lines 27-29). -/
structure Folder where
  Name : String
  deriving DecidableEq, Repr

/-- The struct `listDirectoryResponse` (lines 31-34). -/
structure listDirectoryResponse where
  Folders : List Folder
  Files : List File
  deriving DecidableEq, Repr

/-- The struct `Directory` (lines 146-148). -/
structure Directory where
  Path : String
  deriving DecidableEq, Repr

/-- An `fs.Node` returned by `Lookup`: a `*File` or a `*Directory`. -/
inductive Node where
  | file (f : File)
  | dir (d : Directory)
  deriving DecidableEq, Repr

/-- The constants of `fuse.DirentType`. -/
inductive DirentType where
  | DT_Unknown | DT_Socket | DT_Link | DT_File | DT_Block | DT_Dir | DT_Char | DT_FIFO
  deriving DecidableEq, Repr

/-- The struct `fuse.Dirent` (its field `Type` is `Typ` here); a field the program
does not set is zero. -/
structure Dirent where
  Inode : Nat
  Typ : DirentType
  Name : String
  deriving DecidableEq, Repr

/-- The fields of `fuse.Attr` that the program writes. -/
structure Attr where
  Inode : Nat
  Size : Nat
  Mode : Nat
  deriving DecidableEq, Repr

/-- The fields of `fuse.ReadRequest` that `File.Read` uses: `Offset` is an
`int64`, `Size` an `int`. -/
structure ReadRequest where
  Offset : Int
  Size : Int
  deriving DecidableEq, Repr

/-- The struct `fuse.ReadResponse`. -/
structure ReadResponse where
  Data : Bytes
  deriving DecidableEq, Repr

/-! ## Library code and the outside world -/

/-- An `*http.Request` as far as the program touches it. -/
structure Request where
  Method : String
  URL : String
  RawQuery : String
  Header : List (String × String)
  deriving DecidableEq, Repr

/-- An `*http.Response` together with the outcome of `io.ReadAll(resp.Body)`. -/
structure Response where
  Status : String
  StatusCode : Int
  ReadAll : Except String Bytes

/-- Library functions and the network. An `Except.error msg` stands for a
non-nil error value of the library. -/
structure World where
  /-- the call `http.NewRequest(method, url, nil)` -/
  NewRequest : String → String → Except String Request
  /-- the call `client.Do(req)`, given the number of round trips made before -/
  Do : Nat → Request → Except String Response
  /-- the method `url.Values.Encode` on the values added in order -/
  Encode : List (String × String) → String
  /-- the call `os.Getenv` -/
  Getenv : String → String
  /-- the call `json.Unmarshal(body, &dir)` on a zero `listDirectoryResponse` -/
  Unmarshal : Bytes → Except String listDirectoryResponse
  /-- the call `filepath.Join(a, b)` -/
  Join : String → String → String

/-- Mutable state: the global `fileCache` (line 219) and the requests handed to
`client.Do` so far, oldest first. -/
structure State where
  fileCache : String → Option Bytes
  sent : List Request

/-! ## Machine integers and slices -/

/-- Largest `int64`. -/
def maxInt64 : Int := 2 ^ 63 - 1

/-- Two's complement wrap-around of an integer to `int64`. -/
def wrapInt64 (x : Int) : Int := (x + 2 ^ 63) % 2 ^ 64 - 2 ^ 63

/-- The slice expression `data[lo:hi]`; `none` is the run-time panic
`slice bounds out of range`. Go checks `hi` against the capacity; both slice
expressions of the program are evaluated with `hi ≤ len(data)`, where the check
against the length decides the same. -/
def goSlice (data : Bytes) (lo hi : Int) : Option Bytes :=
  if 0 ≤ lo ∧ lo ≤ hi ∧ hi ≤ (data.length : Int) then
    some ((data.take hi.toNat).drop lo.toNat)
  else
    none

/-- What a handler hands back: a nil error, a non-nil error, or a panic. -/
inductive Outcome where
  | nil
  | err (e : GoError)
  | panic
  deriving DecidableEq, Repr

/-! ## The program -/

/-- The function `listDirectory` (lines 36-77). -/
def listDirectory (w : World) (key path : String) (s : State) :
    Except GoError listDirectoryResponse × State :=
  match w.NewRequest "GET" "https://storage.omelhorsite.pt/storage/list" with
  | .error e => (.error (.lib e), s)
  | .ok req0 =>
    let q := [("key", key), ("path", path)]
    let req1 := { req0 with RawQuery := w.Encode q }
    let req := { req1 with
      Header := ("Authorization", "Bearer " ++ w.Getenv "ACCOUNT_TOKEN") ::
        req1.Header.filter (fun kv => kv.1 != "Authorization") }
    let s1 := { s with sent := s.sent ++ [req] }
    match w.Do s.sent.length req with
    | .error e => (.error (.lib e), s1)
    | .ok resp =>
      match resp.ReadAll with
      | .error e => (.error (.lib e), s1)
      | .ok body =>
        if resp.StatusCode ≠ 200 then
          (.error (.errorf "failed to list folder: %s | %s" resp.Status body), s1)
        else
          match w.Unmarshal body with
          | .error e => (.error (.lib e), s1)
          | .ok dir => (.ok dir, s1)

/-- The function `getFile` (lines 79-106). -/
def getFile (w : World) (url : String) (s : State) : Except GoError Bytes × State :=
  match w.NewRequest "GET" url with
  | .error e => (.error (.lib e), s)
  | .ok req =>
    let s1 := { s with sent := s.sent ++ [req] }
    match w.Do s.sent.length req with
    | .error e => (.error (.lib e), s1)
    | .ok resp =>
      match resp.ReadAll with
      | .error e => (.error (.lib e), s1)
      | .ok body =>
        if resp.StatusCode ≠ 200 then
          (.error (.errorf "failed to get file: %s | %s" resp.Status body), s1)
        else
          (.ok body, s1)

/-- The constant `os.ModeDir`. -/
def ModeDir : Nat := 2 ^ 31

/-- The constant `os.ModeType`: the bits that say a file is not regular. -/
def ModeType : Nat := 2 ^ 31 + 2 ^ 27 + 2 ^ 26 + 2 ^ 25 + 2 ^ 24 + 2 ^ 21 + 2 ^ 19

/-- The method `Directory.Attr` (lines 156-160). -/
def Directory.Attr (_d : Directory) (a : Attr) : Attr × Option GoError :=
  ({ a with Inode := 1, Mode := ModeDir ||| 0o555 }, none)

/-- The first loop of `Directory.Lookup` (lines 171-175): the first file whose
name is `name`, if the loop returns. -/
def lookupFiles (name : String) : List File → Option File
  | [] => none
  | file :: rest => if file.Name = name then some file else lookupFiles name rest

/-- The second loop of `Directory.Lookup` (lines 177-181): whether the loop
returns, that is, whether some folder is called `name`. -/
def lookupFolders (name : String) : List Folder → Bool
  | [] => false
  | folder :: rest => if folder.Name = name then true else lookupFolders name rest

/-- The method `Directory.Lookup` (lines 162-184). -/
def Directory.Lookup (w : World) (d : Directory) (name : String) (s : State) :
    Except GoError Node × State :=
  match listDirectory w "mine" d.Path s with
  | (.error e, s1) => (.error e, s1)
  | (.ok dir, s1) =>
    match lookupFiles name dir.Files with
    | some file => (.ok (.file file), s1)
    | none =>
      if lookupFolders name dir.Folders then
        (.ok (.dir { Path := w.Join d.Path name }), s1)
      else
        (.error ENOENT, s1)

/-- The first loop of `Directory.ReadDirAll` (lines 195-200). -/
def appendFolders (dirents : List Dirent) : List Folder → List Dirent
  | [] => dirents
  | folder :: rest =>
    appendFolders (dirents ++ [{ Inode := 0, Typ := .DT_Dir, Name := folder.Name }]) rest

/-- The second loop of `Directory.ReadDirAll` (lines 202-207). -/
def appendFiles (dirents : List Dirent) : List File → List Dirent
  | [] => dirents
  | file :: rest =>
    appendFiles (dirents ++ [{ Inode := 0, Typ := .DT_File, Name := file.Name }]) rest

/-- The method `Directory.ReadDirAll` (lines 186-210). When `listDirectory`
fails, the error is only logged and `directory` is the zero value that came
back with it. -/
def Directory.ReadDirAll (w : World) (d : Directory) (s : State) :
    (List Dirent × Option GoError) × State :=
  let r := listDirectory w "mine" d.Path s
  let directory : listDirectoryResponse :=
    match r.1 with
    | .error _ => { Folders := [], Files := [] }
    | .ok dir => dir
  let dirents : List Dirent := []
  let dirents := appendFolders dirents directory.Folders
  let dirents := appendFiles dirents directory.Files
  ((dirents, none), r.2)

/-- The method `File.Attr` (lines 212-217). -/
def File.Attr (f : File) (a : Attr) : Attr × Option GoError :=
  ({ a with Inode := 2, Mode := 0o444, Size := f.Size }, none)

/-- The assignment `fileCache[url] = data`. -/
def cacheStore (s : State) (url : String) (data : Bytes) : State :=
  { s with fileCache := fun k => if k = url then some data else s.fileCache k }

/-- Lines 222-230 of `File.Read`: look the URL up in `fileCache`, and on a miss
call `getFile` and store what it returns. -/
def File.resolve (w : World) (f : File) (s : State) : Except GoError Bytes × State :=
  match s.fileCache f.PresignedUrl with
  | some data => (.ok data, s)
  | none =>
    match getFile w f.PresignedUrl s with
    | (.error e, s1) => (.error e, s1)
    | (.ok data, s1) => (.ok data, cacheStore s1 f.PresignedUrl data)

/-- The bounds of the slice expression that lines 236-240 of `File.Read`
evaluate, for content of length `len`. -/
def File.readBounds (len : Nat) (req : ReadRequest) : Int × Int :=
  if wrapInt64 (req.Offset + wrapInt64 req.Size) > (len : Int) then
    (req.Offset, (len : Int))
  else
    (req.Offset, wrapInt64 (req.Offset + wrapInt64 req.Size))

/-- Lines 232-242 of `File.Read`, on the resolved content `data`. -/
def File.serve (data : Bytes) (req : ReadRequest) (resp : ReadResponse) :
    ReadResponse × Outcome :=
  if req.Offset ≥ (data.length : Int) then
    (resp, .err .EOF)
  else
    match goSlice data (File.readBounds data.length req).1 (File.readBounds data.length req).2 with
    | some out => ({ resp with Data := out }, .nil)
    | none => (resp, .panic)

/-- The method `File.Read` (lines 221-243). -/
def File.Read (w : World) (f : File) (req : ReadRequest) (resp : ReadResponse) (s : State) :
    (ReadResponse × Outcome) × State :=
  match File.resolve w f s with
  | (.error e, s1) => ((resp, .err e), s1)
  | (.ok data, s1) => (File.serve data req resp, s1)

/-! ## Sample worlds and states -/

/-- A cache with no entry and no request sent yet. -/
def emptyState : State := { fileCache := fun _ => none, sent := [] }

/-- The bytes of `hello`. -/
def helloBytes : Bytes := [104, 101, 108, 108, 111]

/-- The listing of the root in the sample backend. -/
def sampleListing : listDirectoryResponse :=
  { Folders := [{ Name := "docs" }],
    Files := [{ Name := "readme.txt", PresignedUrl := "https://x/r", Size := 5 }] }

/-- The file entry of the sample listing. -/
def sampleFile : File := { Name := "readme.txt", PresignedUrl := "https://x/r", Size := 5 }

/-- A request as `http.NewRequest` leaves it in the sample worlds. -/
def plainRequest (method url : String) : Request :=
  { Method := method, URL := url, RawQuery := "", Header := [] }

/-- A backend that answers every request with status 200: the object `hello`
for `https://x/r`, and a listing body that decodes to `sampleListing`. -/
def sampleWorld : World :=
  { NewRequest := fun method url => .ok (plainRequest method url),
    Do := fun _ req =>
      if req.URL = "https://x/r" then
        .ok { Status := "200 OK", StatusCode := 200, ReadAll := .ok helloBytes }
      else
        .ok { Status := "200 OK", StatusCode := 200, ReadAll := .ok [] },
    Encode := fun q => String.intercalate "&" (q.map fun kv => kv.1 ++ "=" ++ kv.2),
    Getenv := fun _ => "token",
    Unmarshal := fun _ => .ok sampleListing,
    Join := fun a b => if a = "/" then a ++ b else a ++ "/" ++ b }

/-- A backend that answers every request with status 500. -/
def failingWorld : World :=
  { sampleWorld with
    Do := fun _ _ =>
      .ok { Status := "500 Internal Server Error", StatusCode := 500, ReadAll := .ok [] } }

/-- A backend whose first round trip fails in transport and whose later ones
answer `hello`. -/
def flakyWorld : World :=
  { sampleWorld with
    Do := fun n _ =>
      if n = 0 then .error "connection refused"
      else .ok { Status := "200 OK", StatusCode := 200, ReadAll := .ok helloBytes } }

/-- A backend whose first round trip answers `hello` and whose later ones fail
in transport. -/
def onceWorld : World :=
  { sampleWorld with
    Do := fun n _ =>
      if n = 0 then .ok { Status := "200 OK", StatusCode := 200, ReadAll := .ok helloBytes }
      else .error "connection refused" }

/-- A state whose cache holds `hello` for `https://x/r`. -/
def helloState : State := cacheStore emptyState "https://x/r" helloBytes

/-- Consecutive `File.Read` calls, each on a fresh empty response; the final
state. -/
def runReads (w : World) : List (File × ReadRequest) → State → State
  | [], s => s
  | (f, req) :: rest, s => runReads w rest (File.Read w f req { Data := [] } s).2

/-! ## Specification-side definitions -/

/-- The slice `content[lo:hi]` in the words of the specification, on natural
bounds: the bytes at positions `lo`, ..., `hi - 1`. -/
def sliceOf (content : Bytes) (lo hi : Nat) : Bytes := (content.take hi).drop lo

/-- The directory entry `ReadDirAll` makes for a folder. -/
def folderDirent (folder : Folder) : Dirent :=
  { Inode := 0, Typ := .DT_Dir, Name := folder.Name }

/-- The directory entry `ReadDirAll` makes for a file. -/
def fileDirent (file : File) : Dirent :=
  { Inode := 0, Typ := .DT_File, Name := file.Name }

/-! ## Helper lemmas -/

/-- An integer in the `int64` range is left alone by the wrap-around. -/
theorem wrapInt64_eq (x : Int) (hlo : -(2 ^ 63) ≤ x) (hhi : x ≤ maxInt64) : wrapInt64 x = x := by
  unfold wrapInt64
  unfold maxInt64 at hhi
  omega

/-- A slice expression with bounds in range yields the slice of the specification. -/
theorem goSlice_eq (data : Bytes) (lo hi : Int) (h0 : 0 ≤ lo) (h1 : lo ≤ hi)
    (h2 : hi ≤ (data.length : Int)) :
    goSlice data lo hi = some (sliceOf data lo.toNat hi.toNat) := by
  unfold goSlice sliceOf
  rw [if_pos ⟨h0, h1, h2⟩]

/-- Length of a slice whose upper bound is within the content. -/
theorem sliceOf_length (data : Bytes) (lo hi : Nat) (h : hi ≤ data.length) :
    (sliceOf data lo hi).length = hi - lo := by
  unfold sliceOf
  simp [List.length_drop, List.length_take, h]

/-- Without overflow, the sum computed by `File.Read` is the exact sum. -/
theorem readBounds_sum (req : ReadRequest) (h0 : 0 ≤ req.Offset)
    (hs : 0 ≤ req.Size) (hov : req.Offset + req.Size ≤ maxInt64) :
    wrapInt64 (req.Offset + wrapInt64 req.Size) = req.Offset + req.Size := by
  have hmax : maxInt64 = 2 ^ 63 - 1 := rfl
  rw [wrapInt64_eq req.Size (by omega) (by omega), wrapInt64_eq _ (by omega) hov]

/-- Without overflow, the slice of `File.Read` ends at `min(Offset+Size, len)`. -/
theorem readBounds_eq (len : Nat) (req : ReadRequest) (h0 : 0 ≤ req.Offset)
    (hs : 0 ≤ req.Size) (hov : req.Offset + req.Size ≤ maxInt64) :
    File.readBounds len req = (req.Offset, min (req.Offset + req.Size) (len : Int)) := by
  unfold File.readBounds
  rw [readBounds_sum req h0 hs hov]
  split
  · rw [min_eq_right (by omega)]
  · rw [min_eq_left (by omega)]

/-- The second half of `File.Read` on a request inside the content. -/
theorem serve_in_range (data : Bytes) (req : ReadRequest) (resp : ReadResponse)
    (h0 : 0 ≤ req.Offset) (hlt : req.Offset < (data.length : Int))
    (hs : 0 ≤ req.Size) (hov : req.Offset + req.Size ≤ maxInt64) :
    File.serve data req resp =
      ({ resp with
          Data := sliceOf data (Int.toNat req.Offset)
            (Int.toNat (min (req.Offset + req.Size) (data.length : Int))) }, Outcome.nil) := by
  unfold File.serve
  rw [if_neg (by omega), readBounds_eq data.length req h0 hs hov]
  simp only
  rw [goSlice_eq data _ _ h0 (le_min (by omega) (by omega)) (min_le_right _ _)]

/-- The second half of `File.Read` on a request at or past the end. -/
theorem serve_eof (data : Bytes) (req : ReadRequest) (resp : ReadResponse)
    (h : req.Offset ≥ (data.length : Int)) :
    File.serve data req resp = (resp, Outcome.err GoError.EOF) := by
  unfold File.serve
  rw [if_pos h]

/-- `File.Read` after a successful content resolution. -/
theorem Read_of_resolve (w : World) (f : File) (req : ReadRequest) (resp : ReadResponse)
    (s s1 : State) (data : Bytes) (h : File.resolve w f s = (.ok data, s1)) :
    File.Read w f req resp s = (File.serve data req resp, s1) := by
  unfold File.Read
  rw [h]

/-- `File.Read` after a failed content resolution. -/
theorem Read_of_resolve_error (w : World) (f : File) (req : ReadRequest) (resp : ReadResponse)
    (s s1 : State) (e : GoError) (h : File.resolve w f s = (.error e, s1)) :
    File.Read w f req resp s = ((resp, Outcome.err e), s1) := by
  unfold File.Read
  rw [h]

/-- The first loop of `Lookup` finds the first file entry with the name. -/
theorem lookupFiles_eq_find (name : String) (files : List File) :
    lookupFiles name files = files.find? (fun g => decide (g.Name = name)) := by
  induction files with
  | nil => rfl
  | cons file rest ih =>
    by_cases h : file.Name = name
    · simp [lookupFiles, List.find?, h]
    · simp [lookupFiles, List.find?, h, ih]

/-- The first loop of `Lookup` returns iff some file entry has the name. -/
theorem lookupFiles_some_iff (name : String) (files : List File) :
    (∃ f, lookupFiles name files = some f) ↔ ∃ f ∈ files, f.Name = name := by
  induction files with
  | nil => simp [lookupFiles]
  | cons file rest ih =>
    by_cases h : file.Name = name
    · simp [lookupFiles, h]
    · simp [lookupFiles, h, ih]

/-- The second loop of `Lookup` returns iff some folder entry has the name. -/
theorem lookupFolders_iff (name : String) (folders : List Folder) :
    lookupFolders name folders = true ↔ ∃ d ∈ folders, d.Name = name := by
  induction folders with
  | nil => simp [lookupFolders]
  | cons folder rest ih =>
    by_cases h : folder.Name = name
    · simp [lookupFolders, h]
    · simp [lookupFolders, h, ih]

/-- `Directory.Lookup` after a successful listing. -/
theorem Lookup_of_list_ok (w : World) (p n : String) (s s1 : State)
    (dir : listDirectoryResponse) (h : listDirectory w "mine" p s = (.ok dir, s1)) :
    Directory.Lookup w ⟨p⟩ n s =
      (match lookupFiles n dir.Files with
        | some file => .ok (.file file)
        | none => if lookupFolders n dir.Folders then .ok (.dir ⟨w.Join p n⟩) else .error ENOENT,
       s1) := by
  unfold Directory.Lookup
  simp only [h]
  cases lookupFiles n dir.Files with
  | some file => rfl
  | none =>
    simp only
    split <;> rfl

/-- The first loop of `ReadDirAll` appends one entry per folder, in order. -/
theorem appendFolders_eq (acc : List Dirent) (folders : List Folder) :
    appendFolders acc folders = acc ++ folders.map folderDirent := by
  induction folders generalizing acc with
  | nil => simp [appendFolders]
  | cons folder rest ih => simp [appendFolders, ih, folderDirent]

/-- The second loop of `ReadDirAll` appends one entry per file, in order. -/
theorem appendFiles_eq (acc : List Dirent) (files : List File) :
    appendFiles acc files = acc ++ files.map fileDirent := by
  induction files generalizing acc with
  | nil => simp [appendFiles]
  | cons file rest ih => simp [appendFiles, ih, fileDirent]

/-- No error of `listDirectory` is the value `ENOENT`. -/
theorem listDirectory_ne_ENOENT (w : World) (key path : String) (s s1 : State) (e : GoError)
    (h : listDirectory w key path s = (.error e, s1)) : e ≠ ENOENT := by
  unfold listDirectory at h
  unfold ENOENT
  split at h
  · cases h; simp
  · simp only at h
    split at h
    · cases h; simp
    · split at h
      · cases h; simp
      · split at h
        · cases h; simp
        · split at h
          · cases h; simp
          · cases h

/-- The function `getFile` does not touch `fileCache`. -/
theorem getFile_fileCache (w : World) (url : String) (s : State) :
    (getFile w url s).2.fileCache = s.fileCache := by
  unfold getFile
  split
  · rfl
  · simp only
    split
    · rfl
    · split
      · rfl
      · split <;> rfl

/-- When the request can be built, `getFile` sends exactly that request. -/
theorem getFile_sent_ok (w : World) (url : String) (s : State) (r : Request)
    (h : w.NewRequest "GET" url = .ok r) :
    (getFile w url s).2.sent = s.sent ++ [r] := by
  unfold getFile
  rw [h]
  simp only
  split
  · rfl
  · split
    · rfl
    · split <;> rfl

/-- When the request cannot be built, `getFile` fails without sending. -/
theorem getFile_sent_error (w : World) (url : String) (s : State) (e : String)
    (h : w.NewRequest "GET" url = .error e) :
    getFile w url s = (.error (.lib e), s) := by
  unfold getFile
  rw [h]

/-- Content resolution on a cache hit. -/
theorem resolve_hit (w : World) (f : File) (s : State) (data : Bytes)
    (h : s.fileCache f.PresignedUrl = some data) :
    File.resolve w f s = (.ok data, s) := by
  unfold File.resolve
  rw [h]

/-- Content resolution on a cache miss. -/
theorem resolve_miss (w : World) (f : File) (s : State)
    (h : s.fileCache f.PresignedUrl = none) :
    File.resolve w f s =
      match getFile w f.PresignedUrl s with
      | (.error e, s1) => (.error e, s1)
      | (.ok data, s1) => (.ok data, cacheStore s1 f.PresignedUrl data) := by
  unfold File.resolve
  simp only [h]

/-- Reading back the key just stored. -/
theorem cacheStore_same (s : State) (url : String) (data : Bytes) :
    (cacheStore s url data).fileCache url = some data := by
  simp [cacheStore]

/-- Storing in the cache sends nothing. -/
theorem cacheStore_sent (s : State) (url : String) (data : Bytes) :
    (cacheStore s url data).sent = s.sent := rfl

/-- After a successful resolution the URL is cached with the bytes returned. -/
theorem resolve_ok_cached (w : World) (f : File) (s s1 : State) (data : Bytes)
    (h : File.resolve w f s = (.ok data, s1)) :
    s1.fileCache f.PresignedUrl = some data := by
  cases hc : s.fileCache f.PresignedUrl with
  | some d =>
    rw [resolve_hit w f s d hc] at h
    cases h
    exact hc
  | none =>
    rw [resolve_miss w f s hc] at h
    rcases hg : getFile w f.PresignedUrl s with ⟨r, s2⟩
    rw [hg] at h
    cases r with
    | error e => cases h
    | ok d =>
      cases h
      exact cacheStore_same s2 f.PresignedUrl data

/-- Requests sent by a content resolution. -/
theorem resolve_sent (w : World) (f : File) (s : State) :
    (File.resolve w f s).2.sent =
      match s.fileCache f.PresignedUrl with
      | some _ => s.sent
      | none => (getFile w f.PresignedUrl s).2.sent := by
  unfold File.resolve
  cases s.fileCache f.PresignedUrl with
  | some d => rfl
  | none =>
    simp only
    rcases hg : getFile w f.PresignedUrl s with ⟨r, s2⟩
    cases r <;> rfl

/-- A content resolution keeps every cached entry. -/
theorem resolve_keeps (w : World) (f : File) (s : State) (u : String) (data : Bytes)
    (h : s.fileCache u = some data) :
    (File.resolve w f s).2.fileCache u = some data := by
  cases hc : s.fileCache f.PresignedUrl with
  | some d =>
    rw [resolve_hit w f s d hc]
    exact h
  | none =>
    have hne : u ≠ f.PresignedUrl := by
      intro hu
      rw [hu, hc] at h
      cases h
    rw [resolve_miss w f s hc]
    have hfc := getFile_fileCache w f.PresignedUrl s
    rcases hg : getFile w f.PresignedUrl s with ⟨r, s2⟩
    rw [hg] at hfc
    simp only at hfc
    cases r with
    | error e =>
      simp only
      rw [hfc]
      exact h
    | ok d =>
      simp only [cacheStore, if_neg hne]
      rw [hfc]
      exact h

/-- The state after `File.Read` is the state after its content resolution. -/
theorem Read_state (w : World) (f : File) (req : ReadRequest) (resp : ReadResponse) (s : State) :
    (File.Read w f req resp s).2 = (File.resolve w f s).2 := by
  unfold File.Read
  rcases File.resolve w f s with ⟨r, s1⟩
  cases r <;> rfl

/-- Any sequence of reads keeps every cached entry. -/
theorem runReads_keeps (w : World) (calls : List (File × ReadRequest)) (s : State)
    (u : String) (data : Bytes) (h : s.fileCache u = some data) :
    (runReads w calls s).fileCache u = some data := by
  induction calls generalizing s with
  | nil => exact h
  | cons c rest ih =>
    obtain ⟨f, req⟩ := c
    unfold runReads
    apply ih
    rw [Read_state]
    exact resolve_keeps w f s u data h

/-- A content resolution sends at most one request, the `GET` of the URL. -/
theorem resolve_sent_le (w : World) (f : File) (s : State) :
    ∃ rs, (File.resolve w f s).2.sent = s.sent ++ rs ∧ rs.length ≤ 1 ∧
      ∀ r ∈ rs, w.NewRequest "GET" f.PresignedUrl = .ok r := by
  rw [resolve_sent]
  cases s.fileCache f.PresignedUrl with
  | some d => exact ⟨[], by simp, by simp, by simp⟩
  | none =>
    simp only
    cases hn : w.NewRequest "GET" f.PresignedUrl with
    | error e =>
      rw [getFile_sent_error w f.PresignedUrl s e hn]
      exact ⟨[], by simp, by simp, by simp⟩
    | ok r =>
      rw [getFile_sent_ok w f.PresignedUrl s r hn]
      exact ⟨[r], rfl, by simp, by simp⟩

/-! ## The claims -/

/-- C1 (as amended): whenever the content of the file resolves to `content` (from
the cache or by a successful fetch) and the request has
`0 ≤ Offset < len(content)`, `0 ≤ Size` and `Offset + Size ≤ maxInt64`,
`File.Read` returns a nil error and sets the response data to exactly
`content[Offset : min(Offset+Size, len(content))]`. -/
theorem read_slice (w : World) (f : File) (req : ReadRequest) (resp : ReadResponse)
    (s s1 : State) (content : Bytes)
    (hres : File.resolve w f s = (.ok content, s1))
    (h0 : 0 ≤ req.Offset) (hlt : req.Offset < (content.length : Int))
    (hs : 0 ≤ req.Size) (hov : req.Offset + req.Size ≤ maxInt64) :
    File.Read w f req resp s =
      (({ resp with
          Data := sliceOf content (Int.toNat req.Offset)
            (min (Int.toNat (req.Offset + req.Size)) content.length) }, Outcome.nil), s1) := by
  rw [Read_of_resolve w f req resp s s1 content hres, serve_in_range content req resp h0 hlt hs hov]
  have : Int.toNat (min (req.Offset + req.Size) (content.length : Int))
      = min (Int.toNat (req.Offset + req.Size)) content.length := by
    omega
  rw [this]

/-- Witness of C1: reading 2 bytes at offset 1 of `hello`. -/
theorem read_slice_witness :
    File.Read sampleWorld sampleFile ⟨1, 2⟩ ⟨[]⟩ emptyState =
      ((⟨[101, 108]⟩, Outcome.nil), (File.resolve sampleWorld sampleFile emptyState).2) :=
  read_slice sampleWorld sampleFile ⟨1, 2⟩ ⟨[]⟩ emptyState _ helloBytes rfl
    (by decide) (by decide) (by decide) (by decide)

/-- Counterexample to C1 as stated: with `Offset < len(content)`, a negative
offset, a negative size, and a sum that overflows `int64` each make `File.Read`
panic instead of returning data. -/
theorem read_slice_fails :
    File.resolve sampleWorld sampleFile helloState = (.ok helloBytes, helloState) ∧
    ((-1 : Int) < (helloBytes.length : Int) ∧
      (File.Read sampleWorld sampleFile ⟨-1, 1⟩ ⟨[]⟩ helloState).1 = (⟨[]⟩, Outcome.panic)) ∧
    ((2 : Int) < (helloBytes.length : Int) ∧
      (File.Read sampleWorld sampleFile ⟨2, -1⟩ ⟨[]⟩ helloState).1 = (⟨[]⟩, Outcome.panic)) ∧
    ((1 : Int) < (helloBytes.length : Int) ∧
      (File.Read sampleWorld sampleFile ⟨1, 2 ^ 63 - 1⟩ ⟨[]⟩ helloState).1
        = (⟨[]⟩, Outcome.panic)) := by
  refine ⟨rfl, ⟨by decide, by decide⟩, ⟨by decide, by decide⟩, ⟨by decide, by decide⟩⟩

/-- C2: when the listing of `p` succeeds with `dir`, `Directory.Lookup` of `n`
returns a File node iff some file entry of `dir` is named `n`, and that node is
the first such entry; it returns the Directory node with path `Join p n` iff
some folder entry is named `n` and no file entry is; and it fails with `ENOENT`
iff neither a file nor a folder is named `n`. -/
theorem lookup_spec (w : World) (p n : String) (s s1 : State)
    (dir : listDirectoryResponse) (h : listDirectory w "mine" p s = (.ok dir, s1)) :
    ((∃ f, (Directory.Lookup w ⟨p⟩ n s).1 = .ok (.file f)) ↔ ∃ f ∈ dir.Files, f.Name = n) ∧
    (∀ f, (Directory.Lookup w ⟨p⟩ n s).1 = .ok (.file f) →
      dir.Files.find? (fun g => decide (g.Name = n)) = some f) ∧
    ((Directory.Lookup w ⟨p⟩ n s).1 = .ok (.dir ⟨w.Join p n⟩) ↔
      (∃ d ∈ dir.Folders, d.Name = n) ∧ ¬ ∃ f ∈ dir.Files, f.Name = n) ∧
    ((Directory.Lookup w ⟨p⟩ n s).1 = .error ENOENT ↔
      ¬ ((∃ f ∈ dir.Files, f.Name = n) ∨ ∃ d ∈ dir.Folders, d.Name = n)) := by
  rw [Lookup_of_list_ok w p n s s1 dir h]
  rw [← lookupFiles_some_iff, ← lookupFolders_iff, ← lookupFiles_eq_find]
  cases hf : lookupFiles n dir.Files with
  | some file => simp
  | none =>
    cases hd : lookupFolders n dir.Folders <;> simp [ENOENT]

/-- C3: when the listing of `p` succeeds with folders `F` and files `G`,
`Directory.ReadDirAll` returns a nil error and `len F + len G` entries: the
`i`-th is of type `DT_Dir` and carries the name of the `i`-th folder, the
`(len F + j)`-th is of type `DT_File` and carries the name of the `j`-th file,
and no entry has another type. -/
theorem readDirAll_spec (w : World) (p : String) (s s1 : State)
    (dir : listDirectoryResponse) (h : listDirectory w "mine" p s = (.ok dir, s1)) :
    Directory.ReadDirAll w ⟨p⟩ s =
      ((dir.Folders.map folderDirent ++ dir.Files.map fileDirent, none), s1) ∧
    (Directory.ReadDirAll w ⟨p⟩ s).1.1.length = dir.Folders.length + dir.Files.length ∧
    (∀ i (hi : i < dir.Folders.length),
      (Directory.ReadDirAll w ⟨p⟩ s).1.1[i]? =
        some { Inode := 0, Typ := .DT_Dir, Name := (dir.Folders.get ⟨i, hi⟩).Name }) ∧
    (∀ j (hj : j < dir.Files.length),
      (Directory.ReadDirAll w ⟨p⟩ s).1.1[dir.Folders.length + j]? =
        some { Inode := 0, Typ := .DT_File, Name := (dir.Files.get ⟨j, hj⟩).Name }) ∧
    (∀ e ∈ (Directory.ReadDirAll w ⟨p⟩ s).1.1, e.Typ = .DT_Dir ∨ e.Typ = .DT_File) := by
  have key : Directory.ReadDirAll w ⟨p⟩ s =
      ((dir.Folders.map folderDirent ++ dir.Files.map fileDirent, none), s1) := by
    unfold Directory.ReadDirAll
    simp only [h, appendFolders_eq, appendFiles_eq, List.nil_append]
  rw [key]
  refine ⟨rfl, by simp, ?_, ?_, ?_⟩
  · intro i hi
    simp [List.getElem?_append_left, hi, folderDirent]
  · intro j hj
    rw [List.getElem?_append_right (by simp)]
    simp [hj, fileDirent]
  · intro e he
    simp only [List.mem_append, List.mem_map] at he
    rcases he with ⟨d, _, rfl⟩ | ⟨f, _, rfl⟩
    · left; rfl
    · right; rfl

/-- C4: when the listing of `p` fails with error `e`, `Directory.ReadDirAll`
returns the empty sequence and a nil error, while `Directory.Lookup` of any name
fails with that same `e`, which is never `ENOENT`. -/
theorem list_failure (w : World) (p n : String) (s s1 : State) (e : GoError)
    (h : listDirectory w "mine" p s = (.error e, s1)) :
    Directory.ReadDirAll w ⟨p⟩ s = (([], none), s1) ∧
    Directory.Lookup w ⟨p⟩ n s = (.error e, s1) ∧
    e ≠ ENOENT ∧
    (Directory.Lookup w ⟨p⟩ n s).1 ≠ .error ENOENT := by
  have hne := listDirectory_ne_ENOENT w "mine" p s s1 e h
  refine ⟨?_, ?_, hne, ?_⟩
  · unfold Directory.ReadDirAll
    simp only [h]
    rfl
  · unfold Directory.Lookup
    simp only [h]
  · unfold Directory.Lookup
    simp only [h]
    intro hc
    cases hc
    exact hne rfl

/-- C5 (as amended): whenever the content of the file resolves to `content` and
`Offset ≥ len(content)`, `File.Read` leaves the response untouched (so the data
of a fresh response stays empty) and returns the sentinel `io.EOF`, a non-nil
error value. -/
theorem read_past_end (w : World) (f : File) (req : ReadRequest) (resp : ReadResponse)
    (s s1 : State) (content : Bytes)
    (hres : File.resolve w f s = (.ok content, s1))
    (h : req.Offset ≥ (content.length : Int)) :
    File.Read w f req resp s = ((resp, Outcome.err GoError.EOF), s1) ∧
    (File.Read w f req { Data := [] } s).1.1.Data = [] := by
  rw [Read_of_resolve w f req resp s s1 content hres,
    Read_of_resolve w f req _ s s1 content hres, serve_eof content req resp h,
    serve_eof content req _ h]
  exact ⟨rfl, rfl⟩

/-- Witness of C5 (as amended): reading at offset 5 of `hello`. -/
theorem read_past_end_witness :
    File.Read sampleWorld sampleFile ⟨5, 5⟩ ⟨[]⟩ helloState
      = ((⟨[]⟩, Outcome.err GoError.EOF), helloState) ∧
    (File.Read sampleWorld sampleFile ⟨5, 5⟩ { Data := [] } helloState).1.1.Data = [] :=
  read_past_end sampleWorld sampleFile ⟨5, 5⟩ ⟨[]⟩ helloState helloState helloBytes rfl
    (by decide)

/-- Counterexample to C5 as stated: at offset 5 of the 5-byte content `hello`
the error returned is `io.EOF`, not nil. -/
theorem read_past_end_not_nil :
    File.resolve sampleWorld sampleFile helloState = (.ok helloBytes, helloState) ∧
    (5 : Int) ≥ (helloBytes.length : Int) ∧
    (File.Read sampleWorld sampleFile ⟨5, 5⟩ ⟨[]⟩ helloState).1.2 = Outcome.err GoError.EOF ∧
    (File.Read sampleWorld sampleFile ⟨5, 5⟩ ⟨[]⟩ helloState).1.2 ≠ Outcome.nil := by
  refine ⟨rfl, by decide, by decide, by decide⟩

/-- C10: for a request with `0 ≤ Offset`, `0 ≤ Size` and
`Offset + Size ≤ maxInt64`, `File.Read` never panics; and whenever it slices
(the content resolved and `Offset < len(content)`), the bounds `lo`, `hi` of the
slice expression satisfy `0 ≤ lo = Offset ≤ hi ≤ len(content)`, the slice is
the response data, and its length is `min(Size, len(content) - Offset)`, hence
at most `Size`. -/
theorem read_bounds (w : World) (f : File) (req : ReadRequest) (resp : ReadResponse)
    (s : State)
    (h0 : 0 ≤ req.Offset) (hs : 0 ≤ req.Size) (hov : req.Offset + req.Size ≤ maxInt64) :
    (File.Read w f req resp s).1.2 ≠ Outcome.panic ∧
    ∀ content s1, File.resolve w f s = (.ok content, s1) →
      req.Offset < (content.length : Int) →
      0 ≤ (File.readBounds content.length req).1 ∧
      (File.readBounds content.length req).1 = req.Offset ∧
      (File.readBounds content.length req).1 ≤ (File.readBounds content.length req).2 ∧
      (File.readBounds content.length req).2 ≤ (content.length : Int) ∧
      ∃ out,
        goSlice content (File.readBounds content.length req).1
          (File.readBounds content.length req).2 = some out ∧
        File.Read w f req resp s = (({ resp with Data := out }, Outcome.nil), s1) ∧
        (out.length : Int) = min req.Size ((content.length : Int) - req.Offset) ∧
        (out.length : Int) ≤ req.Size := by
  constructor
  · rcases hres : File.resolve w f s with ⟨r, s1⟩
    cases r with
    | error e =>
      rw [Read_of_resolve_error w f req resp s s1 e hres]
      simp
    | ok content =>
      rw [Read_of_resolve w f req resp s s1 content hres]
      by_cases hlt : req.Offset < (content.length : Int)
      · rw [serve_in_range content req resp h0 hlt hs hov]
        simp
      · rw [serve_eof content req resp (by omega)]
        simp
  · intro content s1 hres hlt
    have hb := readBounds_eq content.length req h0 hs hov
    have hle : min (req.Offset + req.Size) (content.length : Int) ≤ (content.length : Int) :=
      min_le_right _ _
    have hlo : req.Offset ≤ min (req.Offset + req.Size) (content.length : Int) :=
      le_min (by omega) (by omega)
    rw [hb]
    refine ⟨h0, rfl, hlo, hle, sliceOf content (Int.toNat req.Offset)
      (Int.toNat (min (req.Offset + req.Size) (content.length : Int))), ?_, ?_, ?_, ?_⟩
    · exact goSlice_eq content _ _ h0 hlo hle
    · rw [Read_of_resolve w f req resp s s1 content hres,
        serve_in_range content req resp h0 hlt hs hov]
    · rw [sliceOf_length content _ _ (by omega)]
      omega
    · rw [sliceOf_length content _ _ (by omega)]
      omega

/-- Witness of C10: a request of 200 bytes at offset 3. -/
theorem read_bounds_witness :
    (File.Read sampleWorld sampleFile ⟨3, 200⟩ ⟨[]⟩ helloState).1.2 ≠ Outcome.panic ∧
    ∀ content s1, File.resolve sampleWorld sampleFile helloState = (.ok content, s1) →
      (3 : Int) < (content.length : Int) →
      0 ≤ (File.readBounds content.length ⟨3, 200⟩).1 ∧
      (File.readBounds content.length ⟨3, 200⟩).1 = 3 ∧
      (File.readBounds content.length ⟨3, 200⟩).1 ≤ (File.readBounds content.length ⟨3, 200⟩).2 ∧
      (File.readBounds content.length ⟨3, 200⟩).2 ≤ (content.length : Int) ∧
      ∃ out,
        goSlice content (File.readBounds content.length ⟨3, 200⟩).1
          (File.readBounds content.length ⟨3, 200⟩).2 = some out ∧
        File.Read sampleWorld sampleFile ⟨3, 200⟩ ⟨[]⟩ helloState
          = ((⟨out⟩, Outcome.nil), s1) ∧
        (out.length : Int) = min 200 ((content.length : Int) - 3) ∧
        (out.length : Int) ≤ 200 :=
  read_bounds sampleWorld sampleFile ⟨3, 200⟩ ⟨[]⟩ helloState
    (by decide) (by decide) (by decide)

/-- C9: `File.Attr` of a File node with declared size `N` reports size `N`, mode
`0o444` (no file-type bit, no write bit) and inode 2, and returns a nil error.
It reads neither `fileCache` nor the network: it is a function of the node
alone. -/
theorem fileAttr_spec (f : File) (a : Attr) :
    File.Attr f a = ({ Inode := 2, Size := f.Size, Mode := 0o444 }, none) ∧
    (File.Attr f a).1.Size = f.Size ∧
    (File.Attr f a).1.Mode = 0o444 ∧
    (File.Attr f a).1.Mode &&& ModeType = 0 ∧
    (File.Attr f a).1.Mode &&& 0o222 = 0 ∧
    (File.Attr f a).2 = none := by
  refine ⟨rfl, rfl, rfl, ?_, ?_, rfl⟩
  · show (0o444 : Nat) &&& ModeType = 0
    decide
  · show (0o444 : Nat) &&& 0o222 = 0
    decide

/-- C6 (as amended): when a content resolution of URL `u` succeeds with `data`
(by a cache hit or by a successful fetch), the next resolution of `u` yields
the same `data` and sends no request, so both together send at most one
request, and that request is the `GET` of `u`. -/
theorem resolve_twice (w : World) (f f2 : File) (s s1 : State) (data : Bytes)
    (hu : f2.PresignedUrl = f.PresignedUrl)
    (h1 : File.resolve w f s = (.ok data, s1)) :
    File.resolve w f2 s1 = (.ok data, s1) ∧
    (File.resolve w f2 s1).2.sent = s1.sent ∧
    (File.resolve w f2 s1).2.sent.length ≤ s.sent.length + 1 ∧
    ∃ rs, s1.sent = s.sent ++ rs ∧ rs.length ≤ 1 ∧
      ∀ r ∈ rs, w.NewRequest "GET" f.PresignedUrl = .ok r := by
  have hc : s1.fileCache f2.PresignedUrl = some data := by
    rw [hu]
    exact resolve_ok_cached w f s s1 data h1
  have h2 := resolve_hit w f2 s1 data hc
  obtain ⟨rs, hrs, hlen, hreq⟩ := resolve_sent_le w f s
  rw [h1] at hrs
  simp only at hrs
  rw [h2]
  refine ⟨rfl, rfl, ?_, rs, hrs, hlen, hreq⟩
  simp only [hrs, List.length_append]
  omega

/-- Witness of C6 (as amended): a successful fetch followed by a hit. -/
theorem resolve_twice_witness :
    File.resolve onceWorld sampleFile emptyState
      = (.ok helloBytes, (File.resolve onceWorld sampleFile emptyState).2) ∧
    File.resolve onceWorld sampleFile (File.resolve onceWorld sampleFile emptyState).2
      = (.ok helloBytes, (File.resolve onceWorld sampleFile emptyState).2) ∧
    (File.resolve onceWorld sampleFile (File.resolve onceWorld sampleFile emptyState).2).2.sent.length
      ≤ emptyState.sent.length + 1 :=
  ⟨rfl,
    (resolve_twice onceWorld sampleFile sampleFile emptyState _ helloBytes rfl rfl).1,
    (resolve_twice onceWorld sampleFile sampleFile emptyState _ helloBytes rfl rfl).2.2.1⟩

/-- Counterexample to C6 as stated: the first fetch fails, so the second
resolution fetches again: two requests are sent and the results differ. -/
theorem resolve_twice_fails :
    emptyState.fileCache sampleFile.PresignedUrl = none ∧
    (File.resolve flakyWorld sampleFile emptyState).1 = .error (.lib "connection refused") ∧
    (File.resolve flakyWorld sampleFile (File.resolve flakyWorld sampleFile emptyState).2).1
      = .ok helloBytes ∧
    (File.resolve flakyWorld sampleFile (File.resolve flakyWorld sampleFile emptyState).2).2.sent
      = emptyState.sent ++
        [plainRequest "GET" "https://x/r", plainRequest "GET" "https://x/r"] :=
  ⟨rfl, rfl, rfl, rfl⟩

/-- C7: when the URL of the file is not cached and `getFile` fails with `e`,
`File.Read` returns `e` and leaves `fileCache` exactly as it was, with no entry
for the URL; the next `Read` of the same URL therefore calls `getFile` again,
and sends the request again whenever the first attempt got as far as sending
one. -/
theorem read_fetch_failure (w : World) (f : File) (req : ReadRequest) (resp : ReadResponse)
    (s s1 : State) (e : GoError)
    (hmiss : s.fileCache f.PresignedUrl = none)
    (hfail : getFile w f.PresignedUrl s = (.error e, s1)) :
    File.Read w f req resp s = ((resp, Outcome.err e), s1) ∧
    s1.fileCache = s.fileCache ∧
    s1.fileCache f.PresignedUrl = none ∧
    (∀ (f2 : File) (req2 : ReadRequest) (resp2 : ReadResponse),
      f2.PresignedUrl = f.PresignedUrl →
      File.Read w f2 req2 resp2 s1 =
        match getFile w f.PresignedUrl s1 with
        | (.error e2, s2) => ((resp2, Outcome.err e2), s2)
        | (.ok data, s2) => (File.serve data req2 resp2, cacheStore s2 f.PresignedUrl data)) ∧
    (∀ r, w.NewRequest "GET" f.PresignedUrl = .ok r →
      s1.sent = s.sent ++ [r] ∧
      ∀ (f2 : File) (req2 : ReadRequest) (resp2 : ReadResponse),
        f2.PresignedUrl = f.PresignedUrl →
        (File.Read w f2 req2 resp2 s1).2.sent = s1.sent ++ [r]) := by
  have hres : File.resolve w f s = (.error e, s1) := by
    rw [resolve_miss w f s hmiss, hfail]
  have hfc : s1.fileCache = s.fileCache := by
    have := getFile_fileCache w f.PresignedUrl s
    rw [hfail] at this
    exact this
  have hmiss1 : s1.fileCache f.PresignedUrl = none := by
    rw [hfc]
    exact hmiss
  refine ⟨Read_of_resolve_error w f req resp s s1 e hres, hfc, hmiss1, ?_, ?_⟩
  · intro f2 req2 resp2 hu
    unfold File.Read
    rw [resolve_miss w f2 s1 (by rw [hu]; exact hmiss1), hu]
    rcases getFile w f.PresignedUrl s1 with ⟨r, s2⟩
    cases r <;> rfl
  · intro r hr
    have hs1 : s1.sent = s.sent ++ [r] := by
      have := getFile_sent_ok w f.PresignedUrl s r hr
      rw [hfail] at this
      exact this
    refine ⟨hs1, ?_⟩
    intro f2 req2 resp2 hu
    rw [Read_state, resolve_sent, hu, hmiss1]
    exact getFile_sent_ok w f.PresignedUrl s1 r hr

/-- Witness of C7: the first round trip fails in transport. -/
theorem read_fetch_failure_witness :
    File.Read flakyWorld sampleFile ⟨0, 5⟩ ⟨[]⟩ emptyState
      = ((⟨[]⟩, Outcome.err (.lib "connection refused")),
        (getFile flakyWorld "https://x/r" emptyState).2) ∧
    (getFile flakyWorld "https://x/r" emptyState).2.fileCache = emptyState.fileCache :=
  ⟨(read_fetch_failure flakyWorld sampleFile ⟨0, 5⟩ ⟨[]⟩ emptyState _ _ rfl rfl).1,
    (read_fetch_failure flakyWorld sampleFile ⟨0, 5⟩ ⟨[]⟩ emptyState _ _ rfl rfl).2.1⟩

/-- C8: a `File.Read` call, of any file, with any request and whatever the
world answers, leaves every URL that was cached mapped to the same bytes; hence
after a successful resolution of a URL with `data`, every later read of that
URL, after any sequence of reads, is served from `data` without touching the
state. -/
theorem cache_entries_stable (w : World) :
    (∀ (s : State) (u : String) (data : Bytes), s.fileCache u = some data →
      ∀ (f : File) (req : ReadRequest) (resp : ReadResponse),
        (File.Read w f req resp s).2.fileCache u = some data) ∧
    (∀ (f0 : File) (s0 s : State) (data : Bytes), File.resolve w f0 s0 = (.ok data, s) →
      ∀ (calls : List (File × ReadRequest)) (f : File) (req : ReadRequest) (resp : ReadResponse),
        f.PresignedUrl = f0.PresignedUrl →
        (runReads w calls s).fileCache f0.PresignedUrl = some data ∧
        File.Read w f req resp (runReads w calls s)
          = (File.serve data req resp, runReads w calls s)) := by
  constructor
  · intro s u data h f req resp
    rw [Read_state]
    exact resolve_keeps w f s u data h
  · intro f0 s0 s data hres calls f req resp hu
    have hc := runReads_keeps w calls s f0.PresignedUrl data
      (resolve_ok_cached w f0 s0 s data hres)
    refine ⟨hc, ?_⟩
    exact Read_of_resolve w f req resp _ _ data
      (resolve_hit w f _ data (by rw [hu]; exact hc))

/-- Witness of C8: reads after the cache got `hello`. -/
theorem cache_entries_stable_witness :
    (File.Read failingWorld sampleFile ⟨0, 5⟩ ⟨[]⟩ helloState).2.fileCache "https://x/r"
      = some helloBytes ∧
    File.Read onceWorld sampleFile ⟨1, 2⟩ ⟨[]⟩
        (runReads onceWorld [(sampleFile, ⟨0, 5⟩)]
          (File.resolve onceWorld sampleFile emptyState).2)
      = (File.serve helloBytes ⟨1, 2⟩ ⟨[]⟩,
        runReads onceWorld [(sampleFile, ⟨0, 5⟩)]
          (File.resolve onceWorld sampleFile emptyState).2) :=
  ⟨(cache_entries_stable failingWorld).1 helloState "https://x/r" helloBytes rfl
      sampleFile ⟨0, 5⟩ ⟨[]⟩,
    ((cache_entries_stable onceWorld).2 sampleFile emptyState _ helloBytes rfl
      [(sampleFile, ⟨0, 5⟩)] sampleFile ⟨1, 2⟩ ⟨[]⟩ rfl).2⟩

/-- Witness of C2: looking up `docs` in the sample root. -/
theorem lookup_spec_witness :
    (Directory.Lookup sampleWorld ⟨"/"⟩ "docs" emptyState).1
        = .ok (.dir ⟨sampleWorld.Join "/" "docs"⟩) ↔
      (∃ d ∈ sampleListing.Folders, d.Name = "docs") ∧
        ¬ ∃ f ∈ sampleListing.Files, f.Name = "docs" :=
  (lookup_spec sampleWorld "/" "docs" emptyState _ sampleListing rfl).2.2.1

/-- Witness of C3: enumerating the sample root. -/
theorem readDirAll_spec_witness :
    Directory.ReadDirAll sampleWorld ⟨"/"⟩ emptyState =
      ((sampleListing.Folders.map folderDirent ++ sampleListing.Files.map fileDirent, none),
        (listDirectory sampleWorld "mine" "/" emptyState).2) :=
  (readDirAll_spec sampleWorld "/" emptyState _ sampleListing rfl).1

/-- Witness of C4: the backend answers the listing with status 500. -/
theorem list_failure_witness :
    Directory.ReadDirAll failingWorld ⟨"/"⟩ emptyState
      = (([], none), (listDirectory failingWorld "mine" "/" emptyState).2) ∧
    Directory.Lookup failingWorld ⟨"/"⟩ "anything" emptyState
      = (.error (.errorf "failed to list folder: %s | %s" "500 Internal Server Error" []),
        (listDirectory failingWorld "mine" "/" emptyState).2) :=
  ⟨(list_failure failingWorld "/" "anything" emptyState _ _ rfl).1,
    (list_failure failingWorld "/" "anything" emptyState _ _ rfl).2.1⟩

end StorageFuse
